import Mathlib

/-!
Verification of the block-on-spring turboPy tutorial app.

The repository's source is a tutorial notebook defining three plugin classes
for the turboPy framework: a `BlockOnSpring` physics module, a
`BlockDiagnostic` diagnostic, and a `Leapfrog` compute tool, together with an
input configuration that runs a 100-step simulation of a block on a spring.

The notebook's numeric state lives in 1×3 numpy buffers; we model them as
triples of rationals and numpy's elementwise arithmetic as componentwise
rational arithmetic.  Framework components that the notebook imports from
turboPy (Clock, Registry, Resource Directory, the Simulation run loop, the
CSV output utility) are not part of the repository sources and are modelled
from the specification where a claim needs them.
-/

/-- The 1×3 numeric buffers (numpy arrays of shape (1, 3)) used by the
notebook for position and momentum. -/
structure Vec3 where
  c0 : ℚ
  c1 : ℚ
  c2 : ℚ
deriving DecidableEq

/-- Elementwise sum, as in numpy array addition. -/
def Vec3.add (a b : Vec3) : Vec3 :=
  ⟨a.c0 + b.c0, a.c1 + b.c1, a.c2 + b.c2⟩

/-- Elementwise difference. -/
def Vec3.sub (a b : Vec3) : Vec3 :=
  ⟨a.c0 - b.c0, a.c1 - b.c1, a.c2 - b.c2⟩

/-- Multiplication of a buffer by a scalar. -/
def Vec3.smul (r : ℚ) (a : Vec3) : Vec3 :=
  ⟨r * a.c0, r * a.c1, r * a.c2⟩

/-- Elementwise division of a buffer by a scalar. -/
def Vec3.divs (a : Vec3) (r : ℚ) : Vec3 :=
  ⟨a.c0 / r, a.c1 / r, a.c2 / r⟩

/-- The all-zero buffer, np.zeros((1, 3)). -/
def Vec3.zero : Vec3 := ⟨0, 0, 0⟩

/-- `Leapfrog.push` from the notebook: the in-place assignment
`position[:] = position + self.dt * momentum / mass` followed by
`momentum[:] = momentum - self.dt * spring_constant * position`, where the
second line reads the buffer already overwritten by the first.  The pair
returned is (new position buffer, new momentum buffer). -/
def Leapfrog.push (dt : ℚ) (position momentum : Vec3) (mass spring_constant : ℚ) :
    Vec3 × Vec3 :=
  let position' := Vec3.add position (Vec3.divs (Vec3.smul dt momentum) mass)
  let momentum' := Vec3.sub momentum (Vec3.smul (dt * spring_constant) position')
  (position', momentum')

/-- C1: the Leapfrog push first replaces the position x by x + dt·p/m, then
replaces the momentum p by p − dt·k·x evaluated at the just-updated position;
the updates happen in exactly this order.  The last conjunct certifies that
the result differs from what the reverse order (momentum updated from the old
position, then position updated from the new momentum) would produce, at the
concrete input dt = 1, x = 0, p = (1,1,1), m = k = 1. -/
theorem C1_leapfrog_push_position_then_momentum (dt : ℚ) (x p : Vec3) (m k : ℚ) :
    (Leapfrog.push dt x p m k).1 = Vec3.add x (Vec3.divs (Vec3.smul dt p) m)
    ∧ (Leapfrog.push dt x p m k).2
        = Vec3.sub p (Vec3.smul (dt * k) (Vec3.add x (Vec3.divs (Vec3.smul dt p) m)))
    ∧ Leapfrog.push 1 Vec3.zero ⟨1, 1, 1⟩ 1 1
        ≠ (Vec3.add Vec3.zero
             (Vec3.divs (Vec3.smul 1 (Vec3.sub ⟨1, 1, 1⟩ (Vec3.smul (1 * 1) Vec3.zero))) 1),
           Vec3.sub ⟨1, 1, 1⟩ (Vec3.smul (1 * 1) Vec3.zero)) :=
  ⟨rfl, rfl, by
    simp only [Leapfrog.push, Vec3.add, Vec3.sub, Vec3.smul, Vec3.divs, Vec3.zero,
      Prod.mk.injEq, Vec3.mk.injEq, ne_eq]
    norm_num⟩

/-- Modelled from the spec: the turboPy `Clock` is imported by the notebook but its
implementation is not among the repository sources.  Per the spec it owns
`start_time`, `end_time`, `num_steps`, `current_time` and `current_step`, and
derives `dt = (end_time - start_time) / num_steps`. -/
structure Clock where
  start_time : ℚ
  end_time : ℚ
  num_steps : ℕ
  current_time : ℚ
  current_step : ℕ
deriving DecidableEq

/-- The derived step size `dt = (end_time - start_time) / num_steps`. -/
def Clock.dt (c : Clock) : ℚ :=
  (c.end_time - c.start_time) / (c.num_steps : ℚ)

/-- A Clock as constructed from a `{start_time, end_time, num_steps}`
configuration section: time starts at `start_time`, step count at 0. -/
def Clock.init (start_time end_time : ℚ) (num_steps : ℕ) : Clock :=
  ⟨start_time, end_time, num_steps, start_time, 0⟩

/-- Modelled from the spec: `advance()` increments `current_step` by 1 and
`current_time` by `dt`. -/
def Clock.advance (c : Clock) : Clock :=
  ⟨c.start_time, c.end_time, c.num_steps, c.current_time + c.dt, c.current_step + 1⟩

/-- Modelled from the spec: `is_finished()` returns true iff
`current_step ≥ num_steps`. -/
def Clock.is_finished (c : Clock) : Bool :=
  decide (c.num_steps ≤ c.current_step)

/-- `n` consecutive calls to `advance()`. -/
def Clock.advanceN : ℕ → Clock → Clock
  | 0, c => c
  | n + 1, c => Clock.advanceN n c.advance

theorem Clock.advanceN_current_step (n : ℕ) :
    ∀ c : Clock, (Clock.advanceN n c).current_step = c.current_step + n := by
  induction n with
  | zero => intro c; rfl
  | succ n ih =>
    intro c
    show (Clock.advanceN n c.advance).current_step = c.current_step + (n + 1)
    rw [ih c.advance]
    show c.current_step + 1 + n = c.current_step + (n + 1)
    omega

theorem Clock.advanceN_num_steps (n : ℕ) :
    ∀ c : Clock, (Clock.advanceN n c).num_steps = c.num_steps := by
  induction n with
  | zero => intro c; rfl
  | succ n ih => intro c; exact ih c.advance

/-- C3: for every valid Clock configuration (positive `num_steps`, `end_time`
after `start_time`), `advance()` increments `current_step` by exactly 1 and
`current_time` by exactly `dt`; `is_finished()` is true iff
`current_step ≥ num_steps`; starting from the freshly constructed clock,
`num_steps` calls to `advance()` make `is_finished()` true, and `j < num_steps`
calls leave it false. -/
theorem C3_clock_advance_and_termination (s e : ℚ) (N j : ℕ) (c : Clock)
    (hN : 0 < N) (he : s < e) (hj : j < N) :
    c.advance.current_step = c.current_step + 1
    ∧ c.advance.current_time = c.current_time + c.dt
    ∧ (c.is_finished = true ↔ c.num_steps ≤ c.current_step)
    ∧ (Clock.advanceN N (Clock.init s e N)).is_finished = true
    ∧ (Clock.advanceN j (Clock.init s e N)).is_finished = false := by
  refine ⟨rfl, rfl, by simp [Clock.is_finished], ?_, ?_⟩
  · simp only [Clock.is_finished, Clock.advanceN_current_step,
      Clock.advanceN_num_steps, Clock.init, decide_eq_true_eq]
    omega
  · simp only [Clock.is_finished, Clock.advanceN_current_step,
      Clock.advanceN_num_steps, Clock.init, decide_eq_false_iff_not,
      decide_eq_true_eq]
    omega

/-- Witness for C3 at the tutorial's configuration: start 0, end 10, 100 steps,
checked after 99 advances (not finished part) and 100 advances (finished). -/
theorem C3_clock_advance_and_termination_witness :
    0 < 100 ∧ (0 : ℚ) < 10 ∧ 99 < 100
    ∧ ((Clock.init 0 10 100).is_finished = true ↔
        (Clock.init 0 10 100).num_steps ≤ (Clock.init 0 10 100).current_step)
    ∧ (Clock.advanceN 100 (Clock.init 0 10 100)).is_finished = true
    ∧ (Clock.advanceN 99 (Clock.init 0 10 100)).is_finished = false := by
  have h := C3_clock_advance_and_termination 0 10 100 99 (Clock.init 0 10 100)
    (by norm_num) (by norm_num) (by norm_num)
  exact ⟨by norm_num, by norm_num, by norm_num, h.2.2.1, h.2.2.2.1, h.2.2.2.2⟩

/-- Dot product of two buffers. -/
def Vec3.dot (a b : Vec3) : ℚ :=
  a.c0 * b.c0 + a.c1 * b.c1 + a.c2 * b.c2

/-- Squared euclidean norm of a buffer. -/
def Vec3.normSq (a : Vec3) : ℚ :=
  a.c0 ^ 2 + a.c1 ^ 2 + a.c2 ^ 2

/-- The oscillator energy E = p²/(2m) + k·x²/2 at m = k = 1 of a
(position, momentum) state. -/
def energy (s : Vec3 × Vec3) : ℚ :=
  Vec3.normSq s.2 / 2 + Vec3.normSq s.1 / 2

/-- `n`-fold application of the Leapfrog push with mass 1 and spring
constant 1 to a (position, momentum) state. -/
def pushIter (dt : ℚ) : ℕ → Vec3 × Vec3 → Vec3 × Vec3
  | 0, s => s
  | n + 1, s => pushIter dt n (Leapfrog.push dt s.1 s.2 1 1)

/-- The quadratic form x² + p² + dt·x·p, exactly conserved by the Leapfrog
push at m = k = 1. -/
def Qform (dt : ℚ) (s : Vec3 × Vec3) : ℚ :=
  Vec3.normSq s.1 + Vec3.normSq s.2 + dt * Vec3.dot s.1 s.2

theorem Qform_push (dt : ℚ) (s : Vec3 × Vec3) :
    Qform dt (Leapfrog.push dt s.1 s.2 1 1) = Qform dt s := by
  simp only [Qform, Leapfrog.push, Vec3.add, Vec3.sub, Vec3.smul, Vec3.divs,
    Vec3.normSq, Vec3.dot]
  ring

theorem Qform_pushIter (dt : ℚ) (n : ℕ) :
    ∀ s : Vec3 × Vec3, Qform dt (pushIter dt n s) = Qform dt s := by
  induction n with
  | zero => intro s; rfl
  | succ n ih =>
    intro s
    show Qform dt (pushIter dt n (Leapfrog.push dt s.1 s.2 1 1)) = Qform dt s
    rw [ih, Qform_push]

theorem energy_le_Qform (dt : ℚ) (h1 : 0 < dt) (s : Vec3 × Vec3) :
    (2 - dt) * energy s ≤ Qform dt s := by
  simp only [Qform, energy, Vec3.normSq, Vec3.dot]
  nlinarith [mul_nonneg h1.le (sq_nonneg (s.1.c0 + s.2.c0)),
    mul_nonneg h1.le (sq_nonneg (s.1.c1 + s.2.c1)),
    mul_nonneg h1.le (sq_nonneg (s.1.c2 + s.2.c2))]

theorem Qform_le_energy (dt : ℚ) (h1 : 0 < dt) (s : Vec3 × Vec3) :
    Qform dt s ≤ (2 + dt) * energy s := by
  simp only [Qform, energy, Vec3.normSq, Vec3.dot]
  nlinarith [mul_nonneg h1.le (sq_nonneg (s.1.c0 - s.2.c0)),
    mul_nonneg h1.le (sq_nonneg (s.1.c1 - s.2.c1)),
    mul_nonneg h1.le (sq_nonneg (s.1.c2 - s.2.c2))]

/-- C9: for the Leapfrog push with m = k = 1 and small step (0 < dt < 2), the
energy E = p²/2 + x²/2 of the n-fold iterated state is bounded uniformly in n
by the fixed constant (2 + dt)/(2 − dt) times the initial energy, so it never
diverges over arbitrarily many applications of the push. -/
theorem C9_leapfrog_energy_bounded (dt : ℚ) (h1 : 0 < dt) (h2 : dt < 2)
    (x p : Vec3) (n : ℕ) :
    energy (pushIter dt n (x, p)) ≤ (2 + dt) * energy (x, p) / (2 - dt) := by
  have h2d : (0 : ℚ) < 2 - dt := by linarith
  rw [le_div_iff₀ h2d]
  have hlow := energy_le_Qform dt h1 (pushIter dt n (x, p))
  have hinv := Qform_pushIter dt n (x, p)
  have hup := Qform_le_energy dt h1 (x, p)
  linarith

/-- Witness for C9: the tutorial's dt = 1/10 with the tutorial's initial state
x = (0,1,0), p = 0, after 5 pushes. -/
theorem C9_leapfrog_energy_bounded_witness :
    (0 : ℚ) < 1 / 10 ∧ (1 : ℚ) / 10 < 2
    ∧ energy (pushIter (1 / 10) 5 (⟨0, 1, 0⟩, Vec3.zero))
        ≤ (2 + 1 / 10) * energy (⟨0, 1, 0⟩, Vec3.zero) / (2 - 1 / 10) :=
  ⟨by norm_num, by norm_num,
    C9_leapfrog_energy_bounded (1 / 10) (by norm_num) (by norm_num) ⟨0, 1, 0⟩ Vec3.zero 5⟩

/-- Observable events of a simulation run: a PhysicsModule's per-step update,
a Diagnostic's per-step diagnose, a Clock advance, and a Diagnostic finalize. -/
inductive Event where
  | pmStep (name : String)
  | diagStep (name : String)
  | clockAdvance
  | diagFinalize (name : String)
deriving DecidableEq

/-- Whether an event is a Diagnostic finalize. -/
def Event.isFin : Event → Bool
  | Event.diagFinalize _ => true
  | _ => false

/-- The constructed components of a Simulation relevant to the run loop: the
PhysicsModules and the Diagnostics, each in construction order. -/
structure SimCfg where
  physics_modules : List String
  diagnostics : List String

/-- Modelled from the spec: one iteration of the Running-state loop runs every
PhysicsModule's per-step action, then every Diagnostic's per-step action, then
`Clock.advance()` — the turboPy `Simulation` run loop is not among the
repository sources. -/
def cycleEvents (cfg : SimCfg) : List Event :=
  cfg.physics_modules.map Event.pmStep
    ++ cfg.diagnostics.map Event.diagStep
    ++ [Event.clockAdvance]

/-- Modelled from the spec: the step loop repeats its iteration while
`Clock.is_finished()` is false (fuel-bounded while loop; the fuel is spent one
unit per iteration).  Returns the emitted events and the final clock. -/
def runSteps (cfg : SimCfg) : ℕ → Clock → List Event × Clock
  | 0, c => ([], c)
  | fuel + 1, c =>
    if c.is_finished then ([], c)
    else
      let rest := runSteps cfg fuel c.advance
      (cycleEvents cfg ++ rest.1, rest.2)

/-- Modelled from the spec: a full Running-then-Finalized phase — the step
loop from the given clock, then `finalize()` on every Diagnostic in
construction order. -/
def runTrace (cfg : SimCfg) (c : Clock) : List Event :=
  (runSteps cfg (c.num_steps - c.current_step) c).1
    ++ cfg.diagnostics.map Event.diagFinalize

theorem runSteps_spent (cfg : SimCfg) (n : ℕ) :
    ∀ c : Clock, c.current_step + n = c.num_steps →
      (runSteps cfg n c).1 = (List.replicate n (cycleEvents cfg)).flatten := by
  induction n with
  | zero => intro c _; rfl
  | succ n ih =>
    intro c hc
    have hfin : c.is_finished = false := by
      simp only [Clock.is_finished, decide_eq_false_iff_not, not_le]
      omega
    have hadv : c.advance.current_step + n = c.advance.num_steps := by
      show c.current_step + 1 + n = c.num_steps
      omega
    show (if c.is_finished then ([], c)
      else
        let rest := runSteps cfg n c.advance
        (cycleEvents cfg ++ rest.1, rest.2)).1
      = (List.replicate (n + 1) (cycleEvents cfg)).flatten
    rw [hfin]
    simp only [Bool.false_eq_true, if_false, List.replicate_succ, List.flatten_cons]
    rw [ih c.advance hadv]

theorem cycleEvents_no_finalize (cfg : SimCfg) (ev : Event) (hev : ev ∈ cycleEvents cfg) :
    Event.isFin ev = false := by
  simp only [cycleEvents, List.mem_append, List.mem_map, List.mem_singleton] at hev
  rcases hev with (⟨a, _, rfl⟩ | ⟨a, _, rfl⟩) | rfl <;> rfl

/-- C4: in the Running state every loop iteration emits, in order, every
PhysicsModule's per-step action, then every Diagnostic's per-step action, then
a Clock advance; starting from a fresh clock the loop body repeats exactly
`num_steps` times (while the clock is not finished), and after the loop each
Diagnostic is finalized, in construction order; the finalize events of the
whole trace are exactly one per Diagnostic, in construction order, at the
end. -/
theorem C4_run_loop_order (cfg : SimCfg) (s e : ℚ) (N : ℕ) :
    runTrace cfg (Clock.init s e N)
      = (List.replicate N (cycleEvents cfg)).flatten
          ++ cfg.diagnostics.map Event.diagFinalize
    ∧ (runTrace cfg (Clock.init s e N)).filter Event.isFin
        = cfg.diagnostics.map Event.diagFinalize := by
  have hstep : (runSteps cfg N (Clock.init s e N)).1
      = (List.replicate N (cycleEvents cfg)).flatten :=
    runSteps_spent cfg N (Clock.init s e N) (by simp [Clock.init])
  have htr : runTrace cfg (Clock.init s e N)
      = (List.replicate N (cycleEvents cfg)).flatten
          ++ cfg.diagnostics.map Event.diagFinalize := by
    show (runSteps cfg ((Clock.init s e N).num_steps - (Clock.init s e N).current_step)
        (Clock.init s e N)).1 ++ cfg.diagnostics.map Event.diagFinalize = _
    have : (Clock.init s e N).num_steps - (Clock.init s e N).current_step = N := by
      simp [Clock.init]
    rw [this, hstep]
  refine ⟨htr, ?_⟩
  rw [htr, List.filter_append]
  have hnil : ((List.replicate N (cycleEvents cfg)).flatten).filter Event.isFin = [] := by
    rw [List.filter_eq_nil_iff]
    intro ev hev
    have hmem : ev ∈ cycleEvents cfg := by
      rcases List.mem_flatten.mp hev with ⟨l, hl, hevl⟩
      rcases List.eq_of_mem_replicate hl with rfl
      exact hevl
    simp [cycleEvents_no_finalize cfg ev hmem]
  have hself : (cfg.diagnostics.map Event.diagFinalize).filter Event.isFin
      = cfg.diagnostics.map Event.diagFinalize := by
    rw [List.filter_eq_self]
    intro ev hev
    rcases List.mem_map.mp hev with ⟨a, _, rfl⟩
    rfl
  rw [hnil, hself, List.nil_append]

/-- The initial state vector x0 = [0, 1, 0] from the input configuration:
`BlockOnSpring.initialize` copies it into the position buffer, so the block
starts displaced along the second axis; the momentum buffer keeps its
`np.zeros((1, 3))` value. -/
def springX0 : Vec3 := ⟨0, 1, 0⟩

/-- The observable state of the tutorial's configured simulation: the clock,
the BlockOnSpring position and momentum buffers, and the rows accumulated by
the three configured diagnostics (the `clock` time diagnostic and the two
BlockDiagnostics for momentum and position). -/
structure SimState where
  clock : Clock
  position : Vec3
  momentum : Vec3
  timeRows : List ℚ
  momentumRows : List Vec3
  positionRows : List Vec3
deriving DecidableEq

/-- The simulation state right after initialization for the tutorial's
input_data: Clock {start 0, end 10, 100 steps}, position set to x0, momentum
zero, all diagnostic outputs empty. -/
def simInit : SimState :=
  ⟨Clock.init 0 10 100, springX0, Vec3.zero, [], [], []⟩

/-- Modelled from the spec (the turboPy run loop is not among the repository
sources): one Running-state iteration — the PhysicsModule update (the
notebook's `BlockOnSpring.update`, a Leapfrog push with mass 1 and spring
constant 1 from the configuration), then each Diagnostic's `diagnose` (the
time diagnostic records `current_time`; each BlockDiagnostic records the
current contents of its subscribed buffer), then `Clock.advance()`. -/
def simCycle (s : SimState) : SimState :=
  let pushed := Leapfrog.push s.clock.dt s.position s.momentum 1 1
  ⟨s.clock.advance, pushed.1, pushed.2,
    s.timeRows ++ [s.clock.current_time],
    s.momentumRows ++ [pushed.2],
    s.positionRows ++ [pushed.1]⟩

/-- Modelled from the spec: the step loop repeats the iteration while the
clock is not finished (fuel-bounded while loop). -/
def simRun : ℕ → SimState → SimState
  | 0, s => s
  | fuel + 1, s => if s.clock.is_finished then s else simRun fuel (simCycle s)

/-- `BlockDiagnostic.finalize` (and likewise the time diagnostic's finalize)
from the notebook: one extra `diagnose` call recording the state after the
final step, before the csv sink is closed. -/
def simFinalize (s : SimState) : SimState :=
  ⟨s.clock, s.position, s.momentum,
    s.timeRows ++ [s.clock.current_time],
    s.momentumRows ++ [s.momentum],
    s.positionRows ++ [s.position]⟩

/-- The complete run of the tutorial configuration: 100 loop iterations, then
the finalize phase. -/
def simFinal : SimState :=
  simFinalize (simRun 100 simInit)

theorem simRun_rows (n : ℕ) :
    ∀ s : SimState, s.clock.current_step + n = s.clock.num_steps →
      (simRun n s).timeRows
          = s.timeRows
              ++ (List.range n).map
                  (fun i : ℕ => s.clock.current_time + (i : ℚ) * s.clock.dt)
      ∧ (simRun n s).clock.current_time = s.clock.current_time + (n : ℚ) * s.clock.dt
      ∧ (simRun n s).momentumRows.length = s.momentumRows.length + n
      ∧ (simRun n s).positionRows.length = s.positionRows.length + n
      ∧ ∃ l : List Vec3, (simRun n s).momentumRows = s.momentumRows ++ l := by
  induction n with
  | zero =>
    intro s _
    exact ⟨by simp [simRun], by simp [simRun], rfl, rfl, ⟨[], by simp [simRun]⟩⟩
  | succ n ih =>
    intro s hc
    have hfin : s.clock.is_finished = false := by
      simp only [Clock.is_finished, decide_eq_false_iff_not, not_le]
      omega
    have hrun : simRun (n + 1) s = simRun n (simCycle s) := by
      simp [simRun, hfin]
    have hc2 : (simCycle s).clock.current_step + n = (simCycle s).clock.num_steps := by
      show s.clock.current_step + 1 + n = s.clock.num_steps
      omega
    obtain ⟨ht, htime, hm, hp, l, hl⟩ := ih (simCycle s) hc2
    have hcyTime : (simCycle s).clock.current_time = s.clock.current_time + s.clock.dt := rfl
    have hcyDt : (simCycle s).clock.dt = s.clock.dt := rfl
    rw [hcyTime, hcyDt] at ht htime
    refine ⟨?_, ?_, ?_, ?_, ?_⟩
    · rw [hrun, ht]
      show (s.timeRows ++ [s.clock.current_time]) ++ _ = _
      rw [List.range_succ_eq_map, List.map_cons, List.map_map]
      have h0 : s.clock.current_time + ((0 : ℕ) : ℚ) * s.clock.dt
          = s.clock.current_time := by norm_num
      rw [h0]
      have hmap : List.map
            (fun i : ℕ => s.clock.current_time + s.clock.dt + (i : ℚ) * s.clock.dt)
            (List.range n)
          = List.map
              ((fun i : ℕ => s.clock.current_time + (i : ℚ) * s.clock.dt) ∘ Nat.succ)
              (List.range n) := by
        apply List.map_congr_left
        intro i _
        show s.clock.current_time + s.clock.dt + (i : ℚ) * s.clock.dt
          = s.clock.current_time + ((i + 1 : ℕ) : ℚ) * s.clock.dt
        push_cast
        ring
      rw [hmap, List.append_cons]
      simp
    · rw [hrun, htime]
      push_cast
      ring
    · rw [hrun, hm]
      show (s.momentumRows ++ [_]).length + n = _
      rw [List.length_append]
      simp only [List.length_singleton]
      omega
    · rw [hrun, hp]
      show (s.positionRows ++ [_]).length + n = _
      rw [List.length_append]
      simp only [List.length_singleton]
      omega
    · refine ⟨(Leapfrog.push s.clock.dt s.position s.momentum 1 1).2 :: l, ?_⟩
      rw [hrun, hl]
      show (s.momentumRows ++ [_]) ++ l = _
      rw [List.append_assoc]
      rfl

theorem clockInit_dt : (Clock.init 0 10 100).dt = 1 / 10 := by
  norm_num [Clock.dt, Clock.init]

theorem simInit_first_push :
    (Leapfrog.push (Clock.init 0 10 100).dt springX0 Vec3.zero 1 1).2
      = (⟨0, -(1 / 10), 0⟩ : Vec3) := by
  rw [clockInit_dt]
  simp only [Leapfrog.push, springX0, Vec3.zero, Vec3.add, Vec3.sub, Vec3.smul,
    Vec3.divs, Vec3.mk.injEq]
  norm_num

theorem simRun_succ (fuel : ℕ) (s : SimState) (h : s.clock.is_finished = false) :
    simRun (fuel + 1) s = simRun fuel (simCycle s) := by
  simp [simRun, h]

theorem simFinal_eq : simFinal = simFinalize (simRun 100 simInit) := rfl

theorem simFinalize_timeRows (s : SimState) :
    (simFinalize s).timeRows = s.timeRows ++ [s.clock.current_time] := rfl

theorem simFinalize_momentumRows (s : SimState) :
    (simFinalize s).momentumRows = s.momentumRows ++ [s.momentum] := rfl

theorem simFinalize_positionRows (s : SimState) :
    (simFinalize s).positionRows = s.positionRows ++ [s.position] := rfl

theorem simFinal_timeRows :
    simFinal.timeRows = (List.range 101).map (fun i : ℕ => (i : ℚ) / 10) := by
  obtain ⟨ht, htime, -, -, -⟩ := simRun_rows 100 simInit (by simp [simInit, Clock.init])
  have hT : (simRun 100 simInit).timeRows
      = (List.range 100).map (fun i : ℕ => (i : ℚ) / 10) := by
    rw [ht, show simInit.timeRows = [] from rfl, List.nil_append]
    apply List.map_congr_left
    intro i _
    show (Clock.init 0 10 100).current_time + (i : ℚ) * (Clock.init 0 10 100).dt
      = (i : ℚ) / 10
    rw [clockInit_dt, show (Clock.init 0 10 100).current_time = 0 from rfl]
    ring
  have hlast : (simRun 100 simInit).clock.current_time = 10 := by
    rw [htime]
    show (Clock.init 0 10 100).current_time + (100 : ℚ) * (Clock.init 0 10 100).dt = 10
    rw [clockInit_dt, show (Clock.init 0 10 100).current_time = 0 from rfl]
    norm_num
  rw [simFinal_eq, simFinalize_timeRows, hT, hlast]
  conv_rhs => rw [List.range_succ, List.map_append]
  rw [show List.map (fun i : ℕ => (i : ℚ) / 10) [100] = [(10 : ℚ)] by
    rw [List.map_singleton]; norm_num]

theorem simFinal_lengths :
    simFinal.timeRows.length = 101
    ∧ simFinal.momentumRows.length = 101
    ∧ simFinal.positionRows.length = 101 := by
  obtain ⟨ht, -, hm, hp, -⟩ := simRun_rows 100 simInit (by simp [simInit, Clock.init])
  refine ⟨?_, ?_, ?_⟩
  · rw [simFinal_eq, simFinalize_timeRows, List.length_append, ht]
    simp [simInit]
  · rw [simFinal_eq, simFinalize_momentumRows, List.length_append, hm]
    simp [simInit]
  · rw [simFinal_eq, simFinalize_positionRows, List.length_append, hp]
    simp [simInit]

theorem simFinal_momentum_head :
    simFinal.momentumRows.head? = some ⟨0, -(1 / 10), 0⟩ := by
  have h1 : simRun 100 simInit = simRun 99 (simCycle simInit) :=
    simRun_succ 99 simInit (by decide)
  obtain ⟨-, -, -, -, l, hl⟩ :=
    simRun_rows 99 (simCycle simInit) (by simp [simInit, simCycle, Clock.init, Clock.advance])
  have h2 : (simCycle simInit).momentumRows
      = [(Leapfrog.push (Clock.init 0 10 100).dt springX0 Vec3.zero 1 1).2] := rfl
  rw [simFinal_eq, simFinalize_momentumRows, h1, hl, h2, simInit_first_push]
  rfl

/-- C2 (amended): running the tutorial configuration (Clock 0→10 in 100 steps,
spring with mass 1, spring constant 1, pusher Leapfrog, x0 = [0,1,0]) to
completion records exactly 101 time samples — the values 0, 0.1, …, 10.0 —
and exactly 101 momentum and 101 position samples; since each loop iteration
runs the PhysicsModule update before the diagnostics, the first recorded
momentum sample is the momentum after the first Leapfrog push,
(0, −1/10, 0), not the configured (zero) initial momentum. -/
theorem C2_end_to_end_samples :
    simFinal.timeRows = (List.range 101).map (fun i : ℕ => (i : ℚ) / 10)
    ∧ simFinal.timeRows.length = 101
    ∧ simFinal.momentumRows.length = 101
    ∧ simFinal.positionRows.length = 101
    ∧ simFinal.momentumRows.head? = some ⟨0, -(1 / 10), 0⟩ :=
  ⟨simFinal_timeRows, simFinal_lengths.1, simFinal_lengths.2.1, simFinal_lengths.2.2,
    simFinal_momentum_head⟩

/-- C2 counterexample: the claim's final conjunct fails — the first recorded
momentum sample of the complete run is (0, −1/10, 0), while the configured
initial momentum is the zero buffer (momentum is created as np.zeros and the
configuration sets only x0), so the first momentum sample is not the initial
momentum. -/
theorem C2_first_momentum_sample_not_initial :
    simFinal.momentumRows.head? = some ⟨0, -(1 / 10), 0⟩
    ∧ simInit.momentum = Vec3.zero
    ∧ simFinal.momentumRows.head? ≠ some simInit.momentum := by
  refine ⟨simFinal_momentum_head, rfl, ?_⟩
  rw [simFinal_momentum_head, show simInit.momentum = Vec3.zero from rfl]
  simp only [Vec3.zero, Option.some.injEq, Vec3.mk.injEq, ne_eq]
  norm_num

/-- A heap of numeric buffers indexed by buffer identity (address): models
the fact that Python names and resource-directory entries hold references to
numpy arrays, not copies. -/
def Heap := ℕ → Vec3

/-- In-place overwrite of the buffer at address `a` (numpy slice assignment
`buf[:] = ...` mutates the array object itself, it does not rebind names). -/
def Heap.write (h : Heap) (a : ℕ) (v : Vec3) : Heap :=
  fun b => if b = a then v else h b

/-- The identity of the BlockOnSpring's position buffer. -/
def posAddr : ℕ := 0

/-- The identity of the BlockOnSpring's momentum buffer. -/
def momAddr : ℕ := 1

/-- `BlockOnSpring.exchange_resources` from the notebook: it publishes
handles to its own position and momentum buffers — the very arrays it later
writes — under the names "Block:position" and "Block:momentum". -/
def BlockOnSpring.exchange_resources : List (String × ℕ) :=
  [("Block:position", posAddr), ("Block:momentum", momAddr)]

/-- `BlockDiagnostic.inspect_resource` from the notebook (with the configured
string component): when a published resource is keyed "Block:" + component,
the diagnostic stores the published buffer handle in `self.data`. -/
def BlockDiagnostic.inspect_resource (component : String)
    (resources : List (String × ℕ)) : Option ℕ :=
  resources.lookup ("Block:" ++ component)

/-- `BlockOnSpring.update` acting on the heap: the Leapfrog push reads both
buffers and overwrites them in place at their unchanged addresses. -/
def springHeapStep (dt m k : ℚ) (h : Heap) : Heap :=
  let pushed := Leapfrog.push dt (h posAddr) (h momAddr) m k
  (h.write posAddr pushed.1).write momAddr pushed.2

/-- `n` simulation steps acting on the heap. -/
def springHeapStepN (dt m k : ℚ) : ℕ → Heap → Heap
  | 0, h => h
  | n + 1, h => springHeapStepN dt m k n (springHeapStep dt m k h)

/-- The pure n-fold Leapfrog push at mass m and spring constant k. -/
def pushIterMK (dt m k : ℚ) : ℕ → Vec3 × Vec3 → Vec3 × Vec3
  | 0, s => s
  | n + 1, s => pushIterMK dt m k n (Leapfrog.push dt s.1 s.2 m k)

theorem springHeapStep_reads (dt m k : ℚ) (h : Heap) :
    springHeapStep dt m k h posAddr = (Leapfrog.push dt (h posAddr) (h momAddr) m k).1
    ∧ springHeapStep dt m k h momAddr = (Leapfrog.push dt (h posAddr) (h momAddr) m k).2 := by
  constructor <;> simp [springHeapStep, Heap.write, posAddr, momAddr]

theorem springHeapStepN_reads (dt m k : ℚ) (n : ℕ) :
    ∀ h : Heap,
      springHeapStepN dt m k n h posAddr = (pushIterMK dt m k n (h posAddr, h momAddr)).1
      ∧ springHeapStepN dt m k n h momAddr = (pushIterMK dt m k n (h posAddr, h momAddr)).2 := by
  induction n with
  | zero => intro h; exact ⟨rfl, rfl⟩
  | succ n ih =>
    intro h
    obtain ⟨hx, hp⟩ := ih (springHeapStep dt m k h)
    obtain ⟨hx1, hp1⟩ := springHeapStep_reads dt m k h
    have hpair : (springHeapStep dt m k h posAddr, springHeapStep dt m k h momAddr)
        = Leapfrog.push dt (h posAddr) (h momAddr) m k := by
      rw [hx1, hp1]
    refine ⟨?_, ?_⟩
    · show springHeapStepN dt m k n (springHeapStep dt m k h) posAddr = _
      rw [hx, hpair]
      rfl
    · show springHeapStepN dt m k n (springHeapStep dt m k h) momAddr = _
      rw [hp, hpair]
      rfl

/-- C5: the published buffers are shared, not copied.  A diagnostic
subscribing to "position" or "momentum" obtains exactly the handle of the
buffer the BlockOnSpring itself writes in place (the first two conjuncts),
and after any number n of steps, reading through that handle yields exactly
the n-times-updated values — every write is visible to the subscriber
immediately, with no re-publish and no staleness, for the whole run. -/
theorem C5_resources_shared_not_copied (dt m k : ℚ) (h : Heap) (n : ℕ) :
    BlockDiagnostic.inspect_resource "position" BlockOnSpring.exchange_resources
        = some posAddr
    ∧ BlockDiagnostic.inspect_resource "momentum" BlockOnSpring.exchange_resources
        = some momAddr
    ∧ springHeapStepN dt m k n h posAddr = (pushIterMK dt m k n (h posAddr, h momAddr)).1
    ∧ springHeapStepN dt m k n h momAddr = (pushIterMK dt m k n (h posAddr, h momAddr)).2 :=
  ⟨by decide, by decide, (springHeapStepN_reads dt m k n h).1,
    (springHeapStepN_reads dt m k n h).2⟩

/-- Modelled from the spec: the Resource Directory's error cases — the
turboPy implementation is not among the repository sources. -/
inductive ResourceError where
  | DuplicateResourceError
  | UnknownResourceError
deriving DecidableEq

/-- Modelled from the spec: `publish(name, buffer)` fails with
`DuplicateResourceError` when `name` is already published, and otherwise
records the buffer handle under `name`. -/
def RDir.publish (d : List (String × ℕ)) (name : String) (buf : ℕ) :
    Except ResourceError (List (String × ℕ)) :=
  if (d.lookup name).isSome then Except.error ResourceError.DuplicateResourceError
  else Except.ok (d ++ [(name, buf)])

/-- Modelled from the spec: `subscribe(name)` returns the shared buffer
handle stored for `name`, and fails with `UnknownResourceError` when `name`
was never published. -/
def RDir.subscribe (d : List (String × ℕ)) (name : String) :
    Except ResourceError ℕ :=
  match d.lookup name with
  | some b => Except.ok b
  | none => Except.error ResourceError.UnknownResourceError

/-- C6: publishing under an already-published name fails with
DuplicateResourceError; subscribing to a published name returns the stored
shared buffer handle; publishing a fresh name succeeds; and subscribing to a
never-published name fails with UnknownResourceError. -/
theorem C6_resource_directory_contract (d : List (String × ℕ)) (name : String)
    (buf b : ℕ) (hb : d.lookup name = some b)
    (d2 : List (String × ℕ)) (name2 : String) (buf2 : ℕ)
    (h2 : d2.lookup name2 = none) :
    RDir.publish d name buf = Except.error ResourceError.DuplicateResourceError
    ∧ RDir.subscribe d name = Except.ok b
    ∧ RDir.publish d2 name2 buf2 = Except.ok (d2 ++ [(name2, buf2)])
    ∧ RDir.subscribe d2 name2 = Except.error ResourceError.UnknownResourceError := by
  refine ⟨?_, ?_, ?_, ?_⟩ <;> simp [RDir.publish, RDir.subscribe, hb, h2]

/-- Witness for C6: the notebook's "Block:position" resource published at
handle 0, consulted in a directory holding it and in an empty directory. -/
theorem C6_resource_directory_contract_witness :
    ([("Block:position", 0)] : List (String × ℕ)).lookup "Block:position" = some 0
    ∧ ([] : List (String × ℕ)).lookup "Block:position" = none
    ∧ RDir.publish [("Block:position", 0)] "Block:position" 1
        = Except.error ResourceError.DuplicateResourceError
    ∧ RDir.subscribe [("Block:position", 0)] "Block:position" = Except.ok 0
    ∧ RDir.publish [] "Block:position" 1 = Except.ok [("Block:position", 1)]
    ∧ RDir.subscribe [] "Block:position"
        = Except.error ResourceError.UnknownResourceError := by
  have h := C6_resource_directory_contract [("Block:position", 0)] "Block:position" 1 0
    (by decide) [] "Block:position" 1 (by decide)
  exact ⟨by decide, by decide, h.1, h.2.1, h.2.2.1, h.2.2.2⟩

/-- Modelled from the spec: the per-family Registry's error cases — the
turboPy implementation is not among the repository sources (the notebook only
calls `register` on the three families). -/
inductive RegistryError where
  | DuplicateNameError
  | UnknownTypeError
deriving DecidableEq

/-- Modelled from the spec: `register(name, factory)` fails with
`DuplicateNameError` when `name` is already present, and otherwise stores the
factory under `name`. -/
def Registry.register {α : Type} (r : List (String × α)) (name : String)
    (factory : α) : Except RegistryError (List (String × α)) :=
  if (r.lookup name).isSome then Except.error RegistryError.DuplicateNameError
  else Except.ok (r ++ [(name, factory)])

/-- Modelled from the spec: `create(name, owner, config)` fails with
`UnknownTypeError` when `name` is absent, and otherwise invokes the stored
factory on the owner and configuration and returns the new instance. -/
def Registry.create {β γ δ : Type} (r : List (String × (β → γ → δ)))
    (name : String) (owner : β) (config : γ) : Except RegistryError δ :=
  match r.lookup name with
  | some factory => Except.ok (factory owner config)
  | none => Except.error RegistryError.UnknownTypeError

/-- C7: in each per-family Registry, `register` fails with DuplicateNameError
exactly when the name is already present (otherwise storing the factory), and
`create` fails with UnknownTypeError when the name is absent — otherwise it
invokes the stored factory on (owner, config) and returns the new instance. -/
theorem C7_registry_contract (β γ δ : Type) (r : List (String × (β → γ → δ)))
    (name : String) (f : β → γ → δ) (hf : r.lookup name = some f)
    (fac : β → γ → δ) (owner : β) (config : γ)
    (r2 : List (String × (β → γ → δ))) (name2 : String) (fac2 : β → γ → δ)
    (h2 : r2.lookup name2 = none) :
    Registry.register r name fac = Except.error RegistryError.DuplicateNameError
    ∧ Registry.create r name owner config = Except.ok (f owner config)
    ∧ Registry.register r2 name2 fac2 = Except.ok (r2 ++ [(name2, fac2)])
    ∧ Registry.create r2 name2 owner config
        = Except.error RegistryError.UnknownTypeError := by
  refine ⟨?_, ?_, ?_, ?_⟩ <;> simp [Registry.register, Registry.create, hf, h2]

/-- Witness for C7: a registry of ℕ × ℕ → ℕ factories holding the name
"Leapfrog", re-registered (duplicate) and created, plus the same operations
on an empty registry. -/
theorem C7_registry_contract_witness :
    ([("Leapfrog", fun o c : ℕ => o + c)] : List (String × (ℕ → ℕ → ℕ))).lookup "Leapfrog"
        = some (fun o c : ℕ => o + c)
    ∧ ([] : List (String × (ℕ → ℕ → ℕ))).lookup "Leapfrog" = none
    ∧ Registry.register [("Leapfrog", fun o c : ℕ => o + c)] "Leapfrog"
          (fun o c : ℕ => o * c)
        = Except.error RegistryError.DuplicateNameError
    ∧ Registry.create [("Leapfrog", fun o c : ℕ => o + c)] "Leapfrog" 2 3
        = Except.ok ((fun o c : ℕ => o + c) 2 3)
    ∧ Registry.register ([] : List (String × (ℕ → ℕ → ℕ))) "Leapfrog"
          (fun o c : ℕ => o * c)
        = Except.ok [("Leapfrog", fun o c : ℕ => o * c)]
    ∧ Registry.create ([] : List (String × (ℕ → ℕ → ℕ))) "Leapfrog" 2 3
        = Except.error RegistryError.UnknownTypeError := by
  have h := C7_registry_contract ℕ ℕ ℕ [("Leapfrog", fun o c : ℕ => o + c)] "Leapfrog"
    (fun o c : ℕ => o + c) rfl (fun o c : ℕ => o * c) 2 3 [] "Leapfrog"
    (fun o c : ℕ => o * c) rfl
  exact ⟨rfl, rfl, h.1, h.2.1, h.2.2.1, h.2.2.2⟩

/-- The observable state of a csv-backed diagnostic's sink: the rows appended
so far and whether the sink has been closed. -/
structure CSVState where
  rows : List Vec3
  closed : Bool
deriving DecidableEq

/-- `BlockDiagnostic.csv_diagnose` from the notebook: `self.csv.append(data)`
appends the current sample row to the sink. -/
def BlockDiagnostic.csv_diagnose (st : CSVState) (row : Vec3) : CSVState :=
  ⟨st.rows ++ [row], st.closed⟩

/-- `BlockDiagnostic.finalize` from the notebook: one extra `self.diagnose()`
call — appending one more row, the state after the final step — and then
`self.csv.finalize()`, which closes the sink. -/
def BlockDiagnostic.finalize (st : CSVState) (finalRow : Vec3) : CSVState :=
  let st' := BlockDiagnostic.csv_diagnose st finalRow
  ⟨st'.rows, true⟩

/-- A complete run of a csv BlockDiagnostic: one `diagnose` per step-loop
iteration (the per-step samples, in order), then `finalize`. -/
def BlockDiagnostic.runRows (samples : List Vec3) (finalRow : Vec3) : CSVState :=
  BlockDiagnostic.finalize (samples.foldl BlockDiagnostic.csv_diagnose ⟨[], false⟩) finalRow

theorem csv_diagnose_foldl (samples : List Vec3) :
    ∀ st : CSVState,
      (samples.foldl BlockDiagnostic.csv_diagnose st).rows = st.rows ++ samples := by
  induction samples with
  | nil => intro st; simp
  | cons a samples ih =>
    intro st
    show (samples.foldl BlockDiagnostic.csv_diagnose
        (BlockDiagnostic.csv_diagnose st a)).rows = st.rows ++ a :: samples
    rw [ih]
    show (st.rows ++ [a]) ++ samples = st.rows ++ a :: samples
    simp

/-- C8: over a complete run, the csv diagnostic's appended rows are exactly
the per-step samples followed by the one extra sample taken by `finalize()`
before the sink is closed — so the total number of appended rows equals the
number of per-step samples plus one, and the sink ends closed. -/
theorem C8_finalize_appends_one_extra_row (samples : List Vec3) (finalRow : Vec3) :
    (BlockDiagnostic.runRows samples finalRow).rows = samples ++ [finalRow]
    ∧ (BlockDiagnostic.runRows samples finalRow).rows.length = samples.length + 1
    ∧ (BlockDiagnostic.runRows samples finalRow).closed = true := by
  have hrows : (BlockDiagnostic.runRows samples finalRow).rows = samples ++ [finalRow] := by
    show ((samples.foldl BlockDiagnostic.csv_diagnose ⟨[], false⟩).rows ++ [finalRow]) = _
    rw [csv_diagnose_foldl]
    simp
  exact ⟨hrows, by rw [hrows]; simp, rfl⟩

/-- Python values that can appear as the diagnostic's `component` entry: the
model distinguishes strings from the integer default. -/
inductive PyVal where
  | str (s : String)
  | int (n : ℤ)
deriving DecidableEq

/-- `BlockDiagnostic.__init__` from the notebook:
`self.component = input_data.get("component", 1)` — when the key is missing
the default is the integer 1, not a string. -/
def BlockDiagnostic.componentOf (input_data : List (String × PyVal)) : PyVal :=
  (input_data.lookup "component").getD (PyVal.int 1)

/-- Python string concatenation `"Block:" + component`: defined only when the
right operand is a string; on an integer it raises TypeError, modelled as
`none`. -/
def pyStrConcat (s : String) : PyVal → Option String
  | PyVal.str t => some (s ++ t)
  | PyVal.int _ => none

/-- `BlockDiagnostic.inspect_resource` from the notebook, with the
dynamically typed component: forming the key `"Block:" + self.component`
fails (TypeError, outer `none`) unless the component is a string; otherwise
the published handle for the key, if any, is bound to `self.data`. -/
def BlockDiagnostic.inspectDyn (component : PyVal) (data : Option ℕ)
    (resource : List (String × ℕ)) : Option (Option ℕ) :=
  match pyStrConcat "Block:" component with
  | none => none
  | some key =>
    match resource.lookup key with
    | some b => some (some b)
    | none => some data

/-- C10: when the input configuration lacks the "component" key, the
BlockDiagnostic's component defaults to the integer 1 rather than a string,
and the resource-inspection step, which forms "Block:" + component, fails
on every published resource set, so no resource is ever bound; with a string
component the inspection succeeds. -/
theorem C10_missing_component_breaks_inspection (input_data : List (String × PyVal))
    (hmiss : input_data.lookup "component" = none)
    (data : Option ℕ) (resource : List (String × ℕ)) (c : String) :
    BlockDiagnostic.componentOf input_data = PyVal.int 1
    ∧ BlockDiagnostic.inspectDyn (BlockDiagnostic.componentOf input_data) data resource
        = none
    ∧ (BlockDiagnostic.inspectDyn (PyVal.str c) data resource).isSome = true := by
  have hcomp : BlockDiagnostic.componentOf input_data = PyVal.int 1 := by
    simp [BlockDiagnostic.componentOf, hmiss]
  refine ⟨hcomp, by rw [hcomp]; rfl, ?_⟩
  cases hres : resource.lookup ("Block:" ++ c) <;>
    simp [BlockDiagnostic.inspectDyn, pyStrConcat, hres]

/-- Witness for C10: an empty input configuration and the published
"Block:momentum" resource at handle 0. -/
theorem C10_missing_component_breaks_inspection_witness :
    ([] : List (String × PyVal)).lookup "component" = none
    ∧ BlockDiagnostic.componentOf [] = PyVal.int 1
    ∧ BlockDiagnostic.inspectDyn (BlockDiagnostic.componentOf []) none
        [("Block:momentum", 0)] = none
    ∧ (BlockDiagnostic.inspectDyn (PyVal.str "momentum") none
        [("Block:momentum", 0)]).isSome = true := by
  have h := C10_missing_component_breaks_inspection [] rfl none
    [("Block:momentum", 0)] "momentum"
  exact ⟨rfl, h.1, h.2.1, h.2.2⟩
